import Mathlib

/-!
Verification development for the validator-bridge-module relayer daemon.

The definitions below are a shallow embedding of the Rust sources:
`src/controller.rs`, `src/controller_storage.rs`,
`src/graph_node_event_listener.rs`, `src/substrate_event_listener.rs`
and `src/executor.rs`.  256/160-bit hashes, addresses and integers are
modelled as `Nat` (they are only ever compared for equality or order in
the code under scrutiny), `HashMap`s as association lists (the code never
iterates them), `Vec`s as `List`s, and the `Result<(), Error>` of the
storage as `Except StorageError Unit`.  The controller thread's
`for_each` loop over its inbox channel is embedded as a step function on
an explicit state together with recursion over the (finite) input list;
each step returns the list of events sent to the executor channel, in
send order.
-/

set_option maxRecDepth 4000

abbrev MessageId := Nat

abbrev EthAddress := Nat

abbrev SubAddress := Nat

abbrev Amount := Nat

abbrev TokenId := Nat

abbrev BlockNumber := Nat

abbrev Timestamp := Nat

/-- `Address` from controller.rs: tagged union of a host (Eth) and a
guest (Sub) account identifier. -/
inductive Address
  | Eth (a : EthAddress)
  | Sub (a : SubAddress)
deriving DecidableEq, Repr

/-- The `Event` sum type from controller.rs, with the constructor fields
in the declared order.  For `EthRelayMessage` and friends the declared
order is (MessageId, EthAddress, SubAddress, Amount, TokenId,
BlockNumber); for `SubApprovedRelayMessage` and `SubBurnedMessage` it is
(MessageId, SubAddress, EthAddress, Amount, TokenId, BlockNumber). -/
inductive Event
  | EthBridgePausedMessage (messageId : MessageId) (blockNumber : BlockNumber)
  | EthBridgeResumedMessage (messageId : MessageId) (blockNumber : BlockNumber)
  | EthBridgeStartedMessage (messageId : MessageId) (ethAddress : EthAddress)
      (blockNumber : BlockNumber)
  | EthBridgeStoppedMessage (messageId : MessageId) (ethAddress : EthAddress)
      (blockNumber : BlockNumber)
  | EthRelayMessage (messageId : MessageId) (ethAddress : EthAddress)
      (subAddress : SubAddress) (amount : Amount) (tokenId : TokenId)
      (blockNumber : BlockNumber)
  | EthApprovedRelayMessage (messageId : MessageId) (ethAddress : EthAddress)
      (subAddress : SubAddress) (amount : Amount) (tokenId : TokenId)
      (blockNumber : BlockNumber)
  | EthRevertMessage (messageId : MessageId) (ethAddress : EthAddress)
      (amount : Amount) (blockNumber : BlockNumber)
  | EthWithdrawMessage (messageId : MessageId) (blockNumber : BlockNumber)
  | EthHostAccountPausedMessage (messageId : MessageId) (ethAddress : EthAddress)
      (timestamp : Timestamp) (blockNumber : BlockNumber)
  | EthHostAccountResumedMessage (messageId : MessageId) (ethAddress : EthAddress)
      (timestamp : Timestamp) (blockNumber : BlockNumber)
  | EthGuestAccountPausedMessage (messageId : MessageId) (subAddress : SubAddress)
      (timestamp : Timestamp) (blockNumber : BlockNumber)
  | EthGuestAccountResumedMessage (messageId : MessageId) (subAddress : SubAddress)
      (timestamp : Timestamp) (blockNumber : BlockNumber)
  | EthSetNewLimits (messageId : MessageId)
      (minHostTransactionValue maxHostTransactionValue dayHostMaxLimit
       dayHostMaxLimitForOneAddress maxHostPendingTransactionLimit
       minGuestTransactionValue maxGuestTransactionValue dayGuestMaxLimit
       dayGuestMaxLimitForOneAddress maxGuestPendingTransactionLimit : Amount)
      (blockNumber : BlockNumber)
  | EthValidatorsListMessage (messageId : MessageId)
      (newValidators : List SubAddress) (newHowManyValidatorsDecide : Amount)
      (blockNumber : BlockNumber)
  | SubRelayMessage (messageId : MessageId) (blockNumber : BlockNumber)
  | SubApprovedRelayMessage (messageId : MessageId) (subAddress : SubAddress)
      (ethAddress : EthAddress) (amount : Amount) (tokenId : TokenId)
      (blockNumber : BlockNumber)
  | SubBurnedMessage (messageId : MessageId) (subAddress : SubAddress)
      (ethAddress : EthAddress) (amount : Amount) (tokenId : TokenId)
      (blockNumber : BlockNumber)
  | SubMintedMessage (messageId : MessageId) (tokenId : TokenId)
      (blockNumber : BlockNumber)
  | SubCancellationConfirmedMessage (messageId : MessageId) (tokenId : TokenId)
      (blockNumber : BlockNumber)
  | SubAccountPausedMessage (messageId : MessageId) (subAddress : SubAddress)
      (timestamp : Timestamp) (tokenId : TokenId) (blockNumber : BlockNumber)
  | SubAccountResumedMessage (messageId : MessageId) (subAddress : SubAddress)
      (timestamp : Timestamp) (tokenId : TokenId) (blockNumber : BlockNumber)
deriving DecidableEq, Repr

/-- `EventType` from controller.rs. -/
inductive EventType
  | Transfer
  | Other
deriving DecidableEq, Repr

/-- `Status` from controller.rs. -/
inductive Status
  | NotReady
  | Active
  | Paused
  | Stopped
deriving DecidableEq, Repr

/-- `Event::message_id`.  Every variant yields its first field. -/
def Event.message_id : Event → MessageId
  | .EthRelayMessage m _ _ _ _ _ => m
  | .EthApprovedRelayMessage m _ _ _ _ _ => m
  | .EthRevertMessage m _ _ _ => m
  | .EthWithdrawMessage m _ => m
  | .SubRelayMessage m _ => m
  | .SubApprovedRelayMessage m _ _ _ _ _ => m
  | .SubBurnedMessage m _ _ _ _ _ => m
  | .SubMintedMessage m _ _ => m
  | .SubCancellationConfirmedMessage m _ _ => m
  | .EthBridgePausedMessage m _ => m
  | .EthBridgeResumedMessage m _ => m
  | .EthBridgeStartedMessage m _ _ => m
  | .EthBridgeStoppedMessage m _ _ => m
  | .EthSetNewLimits m _ _ _ _ _ _ _ _ _ _ _ => m
  | .EthValidatorsListMessage m _ _ _ => m
  | .EthHostAccountPausedMessage m _ _ _ => m
  | .EthHostAccountResumedMessage m _ _ _ => m
  | .EthGuestAccountPausedMessage m _ _ _ => m
  | .EthGuestAccountResumedMessage m _ _ _ => m
  | .SubAccountPausedMessage m _ _ _ _ => m
  | .SubAccountResumedMessage m _ _ _ _ => m

/-- `Event::block_number`.  Every variant yields its last field. -/
def Event.block_number : Event → BlockNumber
  | .EthRelayMessage _ _ _ _ _ b => b
  | .EthApprovedRelayMessage _ _ _ _ _ b => b
  | .EthWithdrawMessage _ b => b
  | .EthRevertMessage _ _ _ b => b
  | .SubRelayMessage _ b => b
  | .SubApprovedRelayMessage _ _ _ _ _ b => b
  | .SubBurnedMessage _ _ _ _ _ b => b
  | .SubMintedMessage _ _ b => b
  | .SubCancellationConfirmedMessage _ _ b => b
  | .EthSetNewLimits _ _ _ _ _ _ _ _ _ _ _ b => b
  | .EthBridgePausedMessage _ b => b
  | .EthBridgeResumedMessage _ b => b
  | .EthBridgeStartedMessage _ _ b => b
  | .EthBridgeStoppedMessage _ _ b => b
  | .EthValidatorsListMessage _ _ _ b => b
  | .EthHostAccountPausedMessage _ _ _ b => b
  | .EthHostAccountResumedMessage _ _ _ b => b
  | .EthGuestAccountPausedMessage _ _ _ b => b
  | .EthGuestAccountResumedMessage _ _ _ b => b
  | .SubAccountPausedMessage _ _ _ _ b => b
  | .SubAccountResumedMessage _ _ _ _ b => b

/-- `Event::event_type` from controller.rs.  Note that in the source
`EthRevertMessage` and `SubCancellationConfirmedMessage` fall to
`EventType::Other`, and the catch-all arm maps every remaining variant to
`Other` as well. -/
def Event.event_type : Event → EventType
  | .EthRelayMessage _ _ _ _ _ _ => .Transfer
  | .EthApprovedRelayMessage _ _ _ _ _ _ => .Transfer
  | .EthRevertMessage _ _ _ _ => .Other
  | .EthWithdrawMessage _ _ => .Transfer
  | .SubRelayMessage _ _ => .Transfer
  | .SubApprovedRelayMessage _ _ _ _ _ _ => .Transfer
  | .SubBurnedMessage _ _ _ _ _ _ => .Transfer
  | .SubMintedMessage _ _ _ => .Transfer
  | .SubCancellationConfirmedMessage _ _ _ => .Other
  | _ => .Other

/-- `Event::sender` from controller.rs. -/
def Event.sender : Event → Option Address
  | .EthRelayMessage _ e _ _ _ _ => some (.Eth e)
  | .EthApprovedRelayMessage _ e _ _ _ _ => some (.Eth e)
  | .EthRevertMessage _ e _ _ => some (.Eth e)
  | .EthWithdrawMessage _ _ => none
  | .SubRelayMessage _ _ => none
  | .SubApprovedRelayMessage _ s _ _ _ _ => some (.Sub s)
  | .SubBurnedMessage _ s _ _ _ _ => some (.Sub s)
  | .SubMintedMessage _ _ _ => none
  | .SubCancellationConfirmedMessage _ _ _ => none
  | _ => none

/-- `Event::token_id` from controller.rs.  The source pattern
`EthApprovedRelayMessage(_, _, _, token_id, _, _)` binds the FOURTH
positional field, which the `Event` declaration types as `Amount` (the
declared `TokenId` field is the fifth); likewise for
`SubApprovedRelayMessage`.  The embedding reproduces that positional
access faithfully. -/
def Event.token_id : Event → TokenId
  | .EthApprovedRelayMessage _ _ _ a _ _ => a
  | .SubApprovedRelayMessage _ _ _ a _ _ => a
  | _ => 0

/-- Association-list lookup, modelling `HashMap::get`. -/
def alistGet {α β : Type} [DecidableEq α] (k : α) : List (α × β) → Option β
  | [] => none
  | (k', v) :: rest => if k' = k then some v else alistGet k rest

/-- Association-list removal, modelling `HashMap::remove`. -/
def alistRemove {α β : Type} [DecidableEq α] (k : α) :
    List (α × β) → List (α × β)
  | [] => []
  | p :: rest => if p.1 = k then alistRemove k rest else p :: alistRemove k rest

/-- Association-list insert-or-replace, modelling `HashMap::insert`
(the maps embedded this way are never iterated by the source, so entry
order is irrelevant). -/
def alistInsert {α β : Type} [DecidableEq α] (k : α) (v : β)
    (l : List (α × β)) : List (α × β) :=
  (k, v) :: alistRemove k l

/-- `ControllerStorage` from controller_storage.rs. -/
structure ControllerStorage where
  events : List (MessageId × Event)
  events_queue : List Event
  events_of_blocked_accounts : List (Address × List Event)
deriving DecidableEq, Repr

/-- `Error` from controller_storage.rs (its only variant). -/
inductive StorageError
  | Duplicate
deriving DecidableEq, Repr

/-- `ControllerStorage::new`. -/
def ControllerStorage.new : ControllerStorage :=
  { events := [], events_queue := [], events_of_blocked_accounts := [] }

/-- `ControllerStorage::put_event`: duplicate iff an event with the same
message id is stored AND is field-by-field equal; otherwise insert (or
replace) and succeed. -/
def ControllerStorage.put_event (s : ControllerStorage) (event : Event) :
    ControllerStorage × Except StorageError Unit :=
  match alistGet event.message_id s.events with
  | some e =>
    if e = event then (s, .error .Duplicate)
    else ({ s with events := alistInsert event.message_id event s.events }, .ok ())
  | none =>
    ({ s with events := alistInsert event.message_id event s.events }, .ok ())

/-- `ControllerStorage::put_event_to_queue`. -/
def ControllerStorage.put_event_to_queue (s : ControllerStorage) (event : Event) :
    ControllerStorage :=
  { s with events_queue := s.events_queue ++ [event] }

/-- `ControllerStorage::clear_events_queue`. -/
def ControllerStorage.clear_events_queue (s : ControllerStorage) : ControllerStorage :=
  { s with events_queue := [] }

/-- `ControllerStorage::block_account`: insert an empty quarantine queue
if the address is not yet a key (idempotent otherwise). -/
def ControllerStorage.block_account (s : ControllerStorage) (address : Address) :
    ControllerStorage :=
  if (alistGet address s.events_of_blocked_accounts).isSome then s
  else { s with events_of_blocked_accounts :=
          alistInsert address [] s.events_of_blocked_accounts }

/-- `ControllerStorage::unblock_account`: append the account's queue to
the global queue and remove the key; no-op when the key is absent. -/
def ControllerStorage.unblock_account (s : ControllerStorage) (address : Address) :
    ControllerStorage :=
  match alistGet address s.events_of_blocked_accounts with
  | some queue =>
    { s with
      events_queue := s.events_queue ++ queue,
      events_of_blocked_accounts := alistRemove address s.events_of_blocked_accounts }
  | none => s

/-- `ControllerStorage::is_account_blocked`. -/
def ControllerStorage.is_account_blocked (s : ControllerStorage)
    (address : Option Address) : Bool :=
  match address with
  | none => false
  | some a => (alistGet a s.events_of_blocked_accounts).isSome

/-- `ControllerStorage::put_event_to_account_queue`: append to the
sender's quarantine queue.  In the source a `None` sender panics; the
controller only calls this when `is_account_blocked(sender)` holds, which
forces a `Some` sender, so that branch is unreachable in the embedded
controller and is modelled as the identity. -/
def ControllerStorage.put_event_to_account_queue (s : ControllerStorage)
    (event : Event) : ControllerStorage :=
  match event.sender with
  | some sender =>
    match alistGet sender s.events_of_blocked_accounts with
    | some queue =>
      { s with events_of_blocked_accounts :=
          alistInsert sender (queue ++ [event]) s.events_of_blocked_accounts }
    | none => s
  | none => s

/-- `change_status` from controller.rs, as a pure transition function. -/
def change_status (status : Status) (event : Event) : Status :=
  match status with
  | .Active =>
    match event with
    | .EthBridgePausedMessage _ _ => .Paused
    | .EthBridgeStoppedMessage _ _ _ => .Stopped
    | _ => .Active
  | .NotReady =>
    match event with
    | .EthBridgeResumedMessage _ _ => .Active
    | .EthBridgeStartedMessage _ _ _ => .Active
    | _ => .NotReady
  | .Paused =>
    match event with
    | .EthBridgeResumedMessage _ _ => .Active
    | .EthBridgeStartedMessage _ _ _ => .Active
    | _ => .Paused
  | .Stopped =>
    match event with
    | .EthBridgeStartedMessage _ _ _ => .Active
    | _ => .Stopped

/-- `handle_account_control_events` from controller.rs: only the four
indexed-store account-control variants touch the quarantine map. -/
def handle_account_control_events (storage : ControllerStorage) (event : Event) :
    ControllerStorage :=
  match event with
  | .EthHostAccountPausedMessage _ ethAddress _ _ =>
    storage.block_account (.Eth ethAddress)
  | .EthHostAccountResumedMessage _ ethAddress _ _ =>
    storage.unblock_account (.Eth ethAddress)
  | .EthGuestAccountPausedMessage _ subAddress _ _ =>
    storage.block_account (.Sub subAddress)
  | .EthGuestAccountResumedMessage _ subAddress _ _ =>
    storage.unblock_account (.Sub subAddress)
  | _ => storage

/-- Controller state: `status` plus the storage (config and the channel
endpoints carry no event-dispatch state). -/
structure ControllerState where
  status : Status
  storage : ControllerStorage
deriving DecidableEq, Repr

/-- The drain loop of the `Status::Active` branch of `Controller::start`:
`deferred_events.iter().cloned().for_each(|event| { handle_account_control_events(storage, &event); executor_tx.send(event) })`.
Returns the threaded storage and the events sent, in send order. -/
def drainDeferred (storage : ControllerStorage) (deferred : List Event) :
    ControllerStorage × List Event :=
  deferred.foldl
    (fun acc q => (handle_account_control_events acc.1 q, acc.2 ++ [q]))
    (storage, [])

/-- One iteration of the `for_each` body of `Controller::start`:
deduplicate, apply the status transition, then either run the Active
branch (account control, drain the global queue, clear it, and emit or
quarantine the fresh event) or park the event on the global queue.
Returns the successor state and the events sent to the executor, in send
order. -/
def controller_step (cs : ControllerState) (event : Event) :
    ControllerState × List Event :=
  match cs.storage.put_event event with
  | (_, .error _) => (cs, [])
  | (storage1, .ok ()) =>
    let status := change_status cs.status event
    match status with
    | .Active =>
      let storage2 := handle_account_control_events storage1 event
      let deferred := storage2.events_queue
      let (storage3, sent) := drainDeferred storage2 deferred
      let storage4 := storage3.clear_events_queue
      if event.event_type = EventType.Transfer ∧
          storage4.is_account_blocked event.sender = true then
        (⟨status, storage4.put_event_to_account_queue event⟩, sent)
      else
        (⟨status, storage4⟩, sent ++ [event])
    | .NotReady | .Paused | .Stopped =>
      (⟨status, storage1.put_event_to_queue event⟩, [])

/-- `Controller::start` over a finite inbox: fold `controller_step` over
the input sequence, concatenating the emitted events in order. -/
def controller_run (cs : ControllerState) : List Event → ControllerState × List Event
  | [] => (cs, [])
  | e :: rest =>
    let (cs1, sent) := controller_step cs e
    let (cs2, rest_sent) := controller_run cs1 rest
    (cs2, sent ++ rest_sent)

/-- `Controller::new`: status `NotReady`, empty storage. -/
def ControllerState.new : ControllerState :=
  ⟨.NotReady, ControllerStorage.new⟩

/-- The four indexed-store account-control variants: exactly the events
whose arm in `handle_account_control_events` is not the catch-all. -/
def isIndexedAccountControl : Event → Bool
  | .EthHostAccountPausedMessage _ _ _ _ => true
  | .EthHostAccountResumedMessage _ _ _ _ => true
  | .EthGuestAccountPausedMessage _ _ _ _ => true
  | .EthGuestAccountResumedMessage _ _ _ _ => true
  | _ => false

/-- Variant of `drainDeferred` that additionally records, for each event
sent by the drain loop, the storage at the moment of the send — in the
source `handle_account_control_events(storage, &event)` runs immediately
before `executor_tx.send(event)`, so the recorded storage is the one
after that call. -/
def drainDeferredAnnotated (storage : ControllerStorage) (deferred : List Event) :
    ControllerStorage × List (Event × ControllerStorage) :=
  deferred.foldl
    (fun acc q =>
      (handle_account_control_events acc.1 q,
       acc.2 ++ [(q, handle_account_control_events acc.1 q)]))
    (storage, [])

/-- `controller_step` with each sent event annotated with the storage at
the moment of its send (for the fresh event: after the drain loop and
`clear_events_queue`, exactly the storage consulted by the quarantine
check). -/
def controller_step_annotated (cs : ControllerState) (event : Event) :
    ControllerState × List (Event × ControllerStorage) :=
  match cs.storage.put_event event with
  | (_, .error _) => (cs, [])
  | (storage1, .ok ()) =>
    let status := change_status cs.status event
    match status with
    | .Active =>
      let storage2 := handle_account_control_events storage1 event
      let deferred := storage2.events_queue
      let (storage3, sent) := drainDeferredAnnotated storage2 deferred
      let storage4 := storage3.clear_events_queue
      if event.event_type = EventType.Transfer ∧
          storage4.is_account_blocked event.sender = true then
        (⟨status, storage4.put_event_to_account_queue event⟩, sent)
      else
        (⟨status, storage4⟩, sent ++ [(event, storage4)])
    | .NotReady | .Paused | .Stopped =>
      (⟨status, storage1.put_event_to_queue event⟩, [])

/-- Input prefix reaching a state where the account `Sub 7` is blocked
and a transfer from it sits in the global queue: the bridge starts, the
guest account is paused (blocking `Sub 7`), the bridge pauses, and the
transfer arrives while `Paused` (so it is parked globally, bypassing the
quarantine check of the Active branch). -/
def quarantineBreachInputs : List Event :=
  [.EthBridgeStartedMessage 1 99 10,
   .EthGuestAccountPausedMessage 2 7 100 11,
   .EthBridgePausedMessage 3 12,
   .SubApprovedRelayMessage 4 7 5 50 0 13]

/-- The controller state reached by `quarantineBreachInputs`. -/
def quarantineBreachState : ControllerState :=
  (controller_run ControllerState.new quarantineBreachInputs).1

/-- The `BridgeResumed` event whose processing drains the global queue. -/
def quarantineBreachTrigger : Event := .EthBridgeResumedMessage 5 14

/-- The `tokenId()` that C5 describes, read off the `Event` declaration:
the declared `TokenId` field (fifth position) of the two approved-relay
variants, `0` for every other variant. -/
def tokenIdFieldSpec : Event → TokenId
  | .EthApprovedRelayMessage _ _ _ _ t _ => t
  | .SubApprovedRelayMessage _ _ _ _ t _ => t
  | _ => 0

/-- The transfer family as the amended C6 states it: exactly HostRelay,
HostApprovedRelay, HostWithdraw, GuestRelay, GuestApprovedRelay,
GuestBurned and GuestMinted (HostRevert and GuestCancellationConfirmed
are `Other`). -/
def isTransferFamilyAmended : Event → Bool
  | .EthRelayMessage _ _ _ _ _ _ => true
  | .EthApprovedRelayMessage _ _ _ _ _ _ => true
  | .EthWithdrawMessage _ _ => true
  | .SubRelayMessage _ _ => true
  | .SubApprovedRelayMessage _ _ _ _ _ _ => true
  | .SubBurnedMessage _ _ _ _ _ _ => true
  | .SubMintedMessage _ _ _ => true
  | _ => false

/-- Recognizer for `EthBridgeStartedMessage`. -/
def isBridgeStarted : Event → Bool
  | .EthBridgeStartedMessage _ _ _ => true
  | _ => false

/-- The transfer-record status enum of the indexed store, as used by the
decoders and by `UNFINALIZED_STATUSES` in graph_node_event_listener.rs. -/
inductive GraphStatus
  | PENDING
  | WITHDRAW
  | APPROVED
  | CANCELED
deriving DecidableEq, Repr

/-- The transfer direction enum of the indexed store. -/
inductive GraphDirection
  | ETH2SUB
  | SUB2ETH
deriving DecidableEq, Repr

/-- An indexed-store transfer record (`AllMessagesMessages` /
`MessagesByStatusMessages`), with the string-encoded numeric fields
already parsed (`parse_h256`, `parse_h160`, `parse_u256`, `parse_u128`
in the source only convert representations). -/
structure GraphMessage where
  id : MessageId
  ethAddress : EthAddress
  subAddress : SubAddress
  amount : Amount
  ethBlockNumber : BlockNumber
  status : GraphStatus
  direction : GraphDirection
deriving DecidableEq, Repr

/-- `From<&all_messages::AllMessagesMessages> for Event`.  The record
carries no token id and the source constructor calls pass none, so the
token-id slot of the relay variants is filled with 0 here. -/
def eventOfAllMessage (m : GraphMessage) : Event :=
  match m.status, m.direction with
  | .PENDING, .ETH2SUB =>
    .EthRelayMessage m.id m.ethAddress m.subAddress m.amount 0 m.ethBlockNumber
  | .APPROVED, .ETH2SUB =>
    .EthApprovedRelayMessage m.id m.ethAddress m.subAddress m.amount 0 m.ethBlockNumber
  | .CANCELED, .ETH2SUB =>
    .EthRevertMessage m.id m.ethAddress m.amount m.ethBlockNumber
  | .WITHDRAW, .SUB2ETH =>
    .EthWithdrawMessage m.id m.ethBlockNumber
  | _, _ =>
    .EthApprovedRelayMessage m.id m.ethAddress m.subAddress m.amount 0 m.ethBlockNumber

/-- `From<&messages_by_status::MessagesByStatusMessages> for Event`: the
source match is arm-for-arm the same as the `all_messages` one. -/
def eventOfMessageByStatus (m : GraphMessage) : Event :=
  match m.status, m.direction with
  | .PENDING, .ETH2SUB =>
    .EthRelayMessage m.id m.ethAddress m.subAddress m.amount 0 m.ethBlockNumber
  | .APPROVED, .ETH2SUB =>
    .EthApprovedRelayMessage m.id m.ethAddress m.subAddress m.amount 0 m.ethBlockNumber
  | .CANCELED, .ETH2SUB =>
    .EthRevertMessage m.id m.ethAddress m.amount m.ethBlockNumber
  | .WITHDRAW, .SUB2ETH =>
    .EthWithdrawMessage m.id m.ethBlockNumber
  | _, _ =>
    .EthApprovedRelayMessage m.id m.ethAddress m.subAddress m.amount 0 m.ethBlockNumber

/-- Maximum of a list of naturals (`none` on the empty list). -/
def listMaxNat : List Nat → Option Nat
  | [] => none
  | b :: rest =>
    match listMaxNat rest with
    | none => some b
    | some m => some (max b m)

/-- Modelled from the spec: the GraphQL query behind
`get_max_block_number_of_messages` (the query file
`res/graph_node_max_block_number_of_messages.graphql` is not part of
src), per spec §4.4.1/§6 it asks for the maximum `blockNumber` among
records with `blockNumber` greater than the given offset — an empty
response when there is none, a singleton holding that maximum
otherwise. -/
def maxBlockNumberQueryResult (store : List GraphMessage) (offset : Nat) :
    List Nat :=
  match listMaxNat
      ((store.map (fun m => m.ethBlockNumber)).filter
        (fun b => decide (offset < b))) with
  | none => []
  | some m => [m]

/-- `EventListener::get_max_block_number_of_messages`: an empty response
keeps the current offset; otherwise the first (the maximum) block number
of the response is returned. -/
def get_max_block_number_of_messages (store : List GraphMessage)
    (offset : Nat) : Nat :=
  match maxBlockNumberQueryResult store offset with
  | [] => offset
  | b :: _ => b

/-- `EventListener::set_offsets` restricted to the messages category:
`update_messages_offset` applied to the query result (the bridge,
account and limit categories run the structurally identical code on
their own stores and offsets). -/
def set_messages_offset (store : List GraphMessage) (offset : Nat) : Nat :=
  get_max_block_number_of_messages store offset

/-- Modelled from the spec: the `allMessages` polling query (query file
absent from src), per spec §4.4.1 it returns the records with
`blockNumber` greater than the offset — the records whose events
`handle_last_events` would emit on a tick. -/
def allMessagesQueryResult (store : List GraphMessage) (offset : Nat) :
    List GraphMessage :=
  store.filter (fun m => decide (offset < m.ethBlockNumber))

/-- Scenario S6 store: transfer records at block numbers 5, 7 and 9. -/
def graphStoreS6 : List GraphMessage :=
  [⟨21, 2, 3, 10, 5, .PENDING, .ETH2SUB⟩,
   ⟨22, 2, 3, 10, 7, .APPROVED, .ETH2SUB⟩,
   ⟨23, 2, 3, 10, 9, .PENDING, .ETH2SUB⟩]

/-- The chain operation the Executor submits for an event: one
constructor per arm of the dispatch `match` in `Executor::start`,
carrying the event-derived arguments as they are handed to the
respective `handle_*` function (before any config-dependent
token-to-contract routing).  Note the source destructures the fourth
positional field of the relay variants as `token_id` and the fifth as
`amount` (the reverse of the declared field types), which is reflected
in the argument order below. -/
inductive ExecutorAction
  | pause_bridge (messageId : MessageId)
  | resume_bridge (messageId : MessageId)
  | approveTransfer (messageId : MessageId) (ethAddress : EthAddress)
      (subAddress : SubAddress) (amount : Amount) (tokenId : TokenId)
  | multi_signed_mint (messageId : MessageId) (ethAddress : EthAddress)
      (subAddress : SubAddress) (tokenId : TokenId) (amount : Amount)
  | cancel_transfer (messageId : MessageId)
  | confirm_transfer (messageId : MessageId)
  | ignore
  | update_limits (messageId : MessageId)
      (minGuestTransactionValue maxGuestTransactionValue dayGuestMaxLimit
       dayGuestMaxLimitForOneAddress maxGuestPendingTransactionLimit : Amount)
  | update_validator_list (messageId : MessageId)
      (newValidators : List SubAddress) (newHowManyValidatorsDecide : Amount)
  | approve_transfer (messageId : MessageId)
  | withdrawTransfer (messageId : MessageId) (subAddress : SubAddress)
      (ethAddress : EthAddress) (amount : Amount) (tokenId : TokenId)
  | confirmWithdrawTransfer (messageId : MessageId) (tokenId : TokenId)
  | confirmTransfer (messageId : MessageId) (tokenId : TokenId)
  | confirmCancelTransfer (messageId : MessageId) (tokenId : TokenId)
  | setPausedStatusForGuestAddress (messageId : MessageId)
      (subAddress : SubAddress) (tokenId : TokenId)
  | setResumedStatusForGuestAddress (messageId : MessageId)
      (subAddress : SubAddress) (tokenId : TokenId)
deriving DecidableEq, Repr

/-- The dispatch `match` of `Executor::start`: which chain operation each
event is turned into.  The four indexed-store account-control variants
are explicitly dropped (`=> ()` in the source); the two guest-chain
subscription account-control variants are submitted to the HOST chain as
`setPausedStatusForGuestAddress` / `setResumedStatusForGuestAddress`.
In the relay arms below, binders named `a`/`t` hold the declared
`Amount`/`TokenId` fields; the source reads the fourth slot (`a`) as its
`token_id` and the fifth (`t`) as its `amount`. -/
def executor_dispatch : Event → ExecutorAction
  | .EthBridgePausedMessage id _ => .pause_bridge id
  | .EthBridgeResumedMessage id _ => .resume_bridge id
  | .EthBridgeStartedMessage id _ _ => .resume_bridge id
  | .EthBridgeStoppedMessage id _ _ => .pause_bridge id
  | .EthRelayMessage id eth sub a t _ => .approveTransfer id eth sub t a
  | .EthApprovedRelayMessage id eth sub a t _ => .multi_signed_mint id eth sub a t
  | .EthRevertMessage id _ _ _ => .cancel_transfer id
  | .EthWithdrawMessage id _ => .confirm_transfer id
  | .EthHostAccountPausedMessage _ _ _ _ => .ignore
  | .EthHostAccountResumedMessage _ _ _ _ => .ignore
  | .EthGuestAccountPausedMessage _ _ _ _ => .ignore
  | .EthGuestAccountResumedMessage _ _ _ _ => .ignore
  | .EthSetNewLimits id _ _ _ _ _ g1 g2 g3 g4 g5 _ => .update_limits id g1 g2 g3 g4 g5
  | .EthValidatorsListMessage id vs n _ => .update_validator_list id vs n
  | .SubRelayMessage id _ => .approve_transfer id
  | .SubApprovedRelayMessage id sub eth a t _ => .withdrawTransfer id sub eth t a
  | .SubBurnedMessage id _ _ _ t _ => .confirmWithdrawTransfer id t
  | .SubMintedMessage id t _ => .confirmTransfer id t
  | .SubCancellationConfirmedMessage id t _ => .confirmCancelTransfer id t
  | .SubAccountPausedMessage id sub _ t _ => .setPausedStatusForGuestAddress id sub t
  | .SubAccountResumedMessage id sub _ t _ => .setResumedStatusForGuestAddress id sub t

lemma alistGet_insert_self {α β : Type} [DecidableEq α] (k : α) (v : β)
    (l : List (α × β)) : alistGet k (alistInsert k v l) = some v := by
  simp [alistInsert, alistGet]

lemma alistGet_remove_ne {α β : Type} [DecidableEq α] (k k' : α)
    (l : List (α × β)) (h : k' ≠ k) :
    alistGet k (alistRemove k' l) = alistGet k l := by
  induction l with
  | nil => rfl
  | cons p rest ih =>
    by_cases hk : p.1 = k'
    · have hne : p.1 ≠ k := by rw [hk]; exact h
      simp [alistRemove, alistGet, hk, hne, ih, h]
    · by_cases hpk : p.1 = k
      · simp [alistRemove, alistGet, hk, hpk, Ne.symm h]
      · simp [alistRemove, alistGet, hk, hpk, ih]

lemma alistGet_insert_ne {α β : Type} [DecidableEq α] (k k' : α) (v : β)
    (l : List (α × β)) (h : k' ≠ k) :
    alistGet k (alistInsert k' v l) = alistGet k l := by
  simp only [alistInsert, alistGet, h]
  exact alistGet_remove_ne k k' l h

/-- Closed-form characterization of `put_event`: duplicate (storage kept)
exactly when a field-by-field equal event is stored under the same
message id, insert-or-replace and success otherwise. -/
lemma put_event_eq (s : ControllerStorage) (e : Event) :
    s.put_event e =
      if alistGet e.message_id s.events = some e then
        (s, Except.error StorageError.Duplicate)
      else
        ({ s with events := alistInsert e.message_id e s.events }, Except.ok ()) := by
  unfold ControllerStorage.put_event
  cases hg : alistGet e.message_id s.events with
  | none => simp [hg]
  | some e' =>
    by_cases he : e' = e
    · subst he; simp [hg]
    · have hne : alistGet e.message_id s.events ≠ some e := by
        rw [hg]; intro hc; exact he (Option.some.inj hc)
      simp [hg, he, hne]

lemma put_event_preserves_queue (s : ControllerStorage) (e : Event) :
    (s.put_event e).1.events_queue = s.events_queue := by
  rw [put_event_eq]
  by_cases h : alistGet e.message_id s.events = some e <;> simp [h]

lemma put_event_preserves_blocked (s : ControllerStorage) (e : Event) :
    (s.put_event e).1.events_of_blocked_accounts = s.events_of_blocked_accounts := by
  rw [put_event_eq]
  by_cases h : alistGet e.message_id s.events = some e <;> simp [h]

lemma put_event_ok_of_get_none (s : ControllerStorage) (e : Event)
    (h : alistGet e.message_id s.events = none) :
    s.put_event e =
      ({ s with events := alistInsert e.message_id e s.events }, Except.ok ()) := by
  rw [put_event_eq]
  simp [h]

/-- C1: `putEvent(e)` returns `Duplicate` (leaving the storage untouched)
exactly when a field-by-field equal event is already stored under
`messageId(e)`; otherwise it inserts (replacing any different same-id
entry) and returns `Ok`.  Immediately repeating `putEvent(e)` therefore
returns `Duplicate`, on an empty storage the first call returns `Ok`, and
`Duplicate` is the only error value. -/
theorem put_event_duplicate_iff_stored_equal :
    ∀ (s : ControllerStorage) (e : Event),
      ((s.put_event e).2 = Except.error StorageError.Duplicate ↔
        alistGet e.message_id s.events = some e) ∧
      (s.put_event e =
        if alistGet e.message_id s.events = some e then
          (s, Except.error StorageError.Duplicate)
        else
          ({ s with events := alistInsert e.message_id e s.events }, Except.ok ())) ∧
      (((s.put_event e).1.put_event e).2 = Except.error StorageError.Duplicate) ∧
      ((ControllerStorage.new.put_event e).2 = Except.ok ()) ∧
      (∀ err, (s.put_event e).2 = Except.error err → err = StorageError.Duplicate) := by
  intro s e
  refine ⟨?_, put_event_eq s e, ?_, ?_, ?_⟩
  · rw [put_event_eq]
    by_cases h : alistGet e.message_id s.events = some e <;> simp [h]
  · rw [put_event_eq s e]
    by_cases h : alistGet e.message_id s.events = some e
    · simp [h, put_event_eq]
    · simp only [h, if_false]
      rw [put_event_eq]
      simp [alistGet_insert_self]
  · simp [ControllerStorage.new, put_event_eq, alistGet]
  · intro err h
    cases err
    rfl

lemma handle_account_control_events_not_indexed (s : ControllerStorage) (e : Event)
    (h : isIndexedAccountControl e = false) :
    handle_account_control_events s e = s := by
  cases e <;> simp_all [isIndexedAccountControl, handle_account_control_events]

lemma change_status_from_inactive_to_active (st : Status) (e : Event)
    (h1 : st ≠ Status.Active) (h2 : change_status st e = Status.Active) :
    (∃ id bn, e = .EthBridgeResumedMessage id bn) ∨
    (∃ id a bn, e = .EthBridgeStartedMessage id a bn) := by
  cases st <;> cases e <;> simp_all [change_status]

lemma controller_step_duplicate (cs : ControllerState) (e : Event)
    (h : alistGet e.message_id cs.storage.events = some e) :
    controller_step cs e = (cs, []) := by
  unfold controller_step
  rw [put_event_eq]
  simp [h]

lemma controller_step_inactive (cs : ControllerState) (e : Event)
    (hok : alistGet e.message_id cs.storage.events ≠ some e)
    (hst : change_status cs.status e ≠ Status.Active) :
    controller_step cs e =
      (⟨change_status cs.status e,
        { events := alistInsert e.message_id e cs.storage.events,
          events_queue := cs.storage.events_queue ++ [e],
          events_of_blocked_accounts := cs.storage.events_of_blocked_accounts }⟩,
       []) := by
  unfold controller_step
  rw [put_event_eq]
  simp only [hok, if_false, if_neg]
  cases hc : change_status cs.status e with
  | Active => exact absurd hc hst
  | NotReady => simp [ControllerStorage.put_event_to_queue]
  | Paused => simp [ControllerStorage.put_event_to_queue]
  | Stopped => simp [ControllerStorage.put_event_to_queue]

lemma drainDeferred_aux (l : List Event) :
    ∀ (storage : ControllerStorage) (acc : List Event),
      (l.foldl (fun acc q => (handle_account_control_events acc.1 q, acc.2 ++ [q]))
        (storage, acc)).2 = acc ++ l := by
  induction l with
  | nil => intro storage acc; simp
  | cons q rest ih =>
    intro storage acc
    simp only [List.foldl_cons]
    rw [ih]
    simp

/-- The drain loop sends exactly the snapshot of the global queue, in
order, regardless of the account-control effects threaded through it. -/
lemma drainDeferred_sent (storage : ControllerStorage) (l : List Event) :
    (drainDeferred storage l).2 = l := by
  unfold drainDeferred
  exact drainDeferred_aux l storage []

lemma controller_step_activate (cs : ControllerState) (e : Event)
    (hok : alistGet e.message_id cs.storage.events ≠ some e)
    (h1 : cs.status ≠ Status.Active)
    (hact : change_status cs.status e = Status.Active) :
    (controller_step cs e).2 = cs.storage.events_queue ++ [e] ∧
    (controller_step cs e).1.status = Status.Active := by
  have hshape := change_status_from_inactive_to_active cs.status e h1 hact
  have htype : e.event_type = EventType.Other := by
    rcases hshape with ⟨id, bn, rfl⟩ | ⟨id, a, bn, rfl⟩ <;> rfl
  have hhandle : ∀ s : ControllerStorage, handle_account_control_events s e = s := by
    intro s
    apply handle_account_control_events_not_indexed
    rcases hshape with ⟨id, bn, rfl⟩ | ⟨id, a, bn, rfl⟩ <;> rfl
  unfold controller_step
  rw [put_event_eq]
  simp only [hok, if_false, if_neg]
  rw [hact]
  simp only [hhandle]
  have hcond : ¬(e.event_type = EventType.Transfer ∧
      ((drainDeferred
        { events := alistInsert e.message_id e cs.storage.events,
          events_queue := cs.storage.events_queue,
          events_of_blocked_accounts := cs.storage.events_of_blocked_accounts }
        cs.storage.events_queue).1.clear_events_queue).is_account_blocked e.sender
        = true) := by
    intro hc
    rw [htype] at hc
    exact absurd hc.1 (by simp)
  simp only [drainDeferred_sent]
  simp_all

lemma controller_run_append (l1 l2 : List Event) :
    ∀ cs : ControllerState,
      controller_run cs (l1 ++ l2) =
        ((controller_run (controller_run cs l1).1 l2).1,
         (controller_run cs l1).2 ++ (controller_run (controller_run cs l1).1 l2).2) := by
  induction l1 with
  | nil => intro cs; simp [controller_run]
  | cons e rest ih =>
    intro cs
    simp only [List.cons_append, controller_run, List.append_eq]
    rw [ih]
    simp [List.append_assoc]

/-- While the bridge stays inactive, every fresh event is appended to the
global queue and nothing is emitted; the status, quarantine map and the
other message-id entries are untouched. -/
lemma controller_run_inactive (es : List Event) :
    ∀ cs : ControllerState,
      cs.status ≠ Status.Active →
      (∀ e ∈ es, change_status cs.status e = cs.status) →
      (∀ e ∈ es, alistGet e.message_id cs.storage.events = none) →
      (es.map Event.message_id).Nodup →
      (controller_run cs es).2 = [] ∧
      (controller_run cs es).1.status = cs.status ∧
      (controller_run cs es).1.storage.events_queue =
        cs.storage.events_queue ++ es ∧
      (controller_run cs es).1.storage.events_of_blocked_accounts =
        cs.storage.events_of_blocked_accounts ∧
      (∀ mid, mid ∉ es.map Event.message_id →
        alistGet mid (controller_run cs es).1.storage.events =
          alistGet mid cs.storage.events) := by
  induction es with
  | nil => intro cs _ _ _ _; simp [controller_run]
  | cons e rest ih =>
    intro cs hst hkeep hfresh hnodup
    have hkeep_e : change_status cs.status e = cs.status := hkeep e (by simp)
    have hfresh_e : alistGet e.message_id cs.storage.events = none :=
      hfresh e (by simp)
    have hok : alistGet e.message_id cs.storage.events ≠ some e := by
      rw [hfresh_e]; intro hc; cases hc
    have hstep := controller_step_inactive cs e hok (by rw [hkeep_e]; exact hst)
    have hmid_not : e.message_id ∉ rest.map Event.message_id := by
      have := hnodup
      simp only [List.map_cons, List.nodup_cons] at this
      exact this.1
    set cs1 : ControllerState :=
      ⟨change_status cs.status e,
        { events := alistInsert e.message_id e cs.storage.events,
          events_queue := cs.storage.events_queue ++ [e],
          events_of_blocked_accounts := cs.storage.events_of_blocked_accounts }⟩
      with hcs1
    have hcs1_status : cs1.status = cs.status := by rw [hcs1]; simp [hkeep_e]
    have ihres := ih cs1
      (by rw [hcs1_status]; exact hst)
      (by intro e' he'; rw [hcs1_status]; exact hkeep e' (by simp [he']))
      (by
        intro e' he'
        have hne : e.message_id ≠ e'.message_id := by
          intro hc
          exact hmid_not (hc ▸ List.mem_map_of_mem Event.message_id he')
        show alistGet e'.message_id cs1.storage.events = none
        rw [hcs1]
        simpa [alistGet_insert_ne e'.message_id e.message_id e _ hne] using
          hfresh e' (by simp [he']))
      (by
        have := hnodup
        simp only [List.map_cons, List.nodup_cons] at this
        exact this.2)
    obtain ⟨ih_out, ih_status, ih_queue, ih_blocked, ih_events⟩ := ihres
    have hrun : controller_run cs (e :: rest) =
        ((controller_run cs1 rest).1, [] ++ (controller_run cs1 rest).2) := by
      simp only [controller_run, hstep]
    refine ⟨?_, ?_, ?_, ?_, ?_⟩
    · rw [hrun]; simp [ih_out]
    · rw [hrun]
      show (controller_run cs1 rest).1.status = cs.status
      rw [ih_status]
      exact hcs1_status
    · rw [hrun]
      simp only [ih_queue, hcs1]
      simp
    · rw [hrun]
      simpa [hcs1] using ih_blocked
    · intro mid hmid
      have hmid_rest : mid ∉ rest.map Event.message_id := by
        intro hc; exact hmid (by simp [hc])
      have hmid_ne : e.message_id ≠ mid := by
        intro hc; exact hmid (by simp [hc])
      rw [hrun]
      have h1 := ih_events mid hmid_rest
      simp only [h1, hcs1]
      exact alistGet_insert_ne mid e.message_id e cs.storage.events hmid_ne

/-- C2: while the status (after the transition function) is `NotReady`,
`Paused` or `Stopped`, every fresh (non-duplicate) event is parked on the
global queue and nothing is emitted; when a later fresh event switches
the status to `Active`, the queued events are emitted to the executor in
their original arrival order (after whatever the queue already held),
followed by the triggering event itself. -/
theorem inactive_events_queue_and_drain_in_order
    (cs : ControllerState) (es : List Event) (trigger : Event)
    (hst : cs.status ≠ Status.Active)
    (hkeep : ∀ e ∈ es, change_status cs.status e = cs.status)
    (htrig : change_status cs.status trigger = Status.Active)
    (hfresh : ∀ e ∈ es ++ [trigger],
      alistGet e.message_id cs.storage.events = none)
    (hnodup : ((es ++ [trigger]).map Event.message_id).Nodup) :
    (controller_run cs es).2 = [] ∧
    (controller_run cs es).1.storage.events_queue =
      cs.storage.events_queue ++ es ∧
    (controller_run cs (es ++ [trigger])).2 =
      cs.storage.events_queue ++ es ++ [trigger] := by
  have hfr_es : ∀ e ∈ es, alistGet e.message_id cs.storage.events = none :=
    fun e he => hfresh e (by simp [he])
  have hnodup' := hnodup
  rw [List.map_append, List.nodup_append] at hnodup'
  obtain ⟨hnod_es, _, hdisj⟩ := hnodup'
  obtain ⟨h_out, h_status, h_queue, h_blocked, h_events⟩ :=
    controller_run_inactive es cs hst hkeep hfr_es hnod_es
  have htrig_notin : trigger.message_id ∉ es.map Event.message_id := by
    intro hc
    exact hdisj hc (by simp)
  have hget_trig :
      alistGet trigger.message_id (controller_run cs es).1.storage.events = none := by
    rw [h_events trigger.message_id htrig_notin]
    exact hfresh trigger (by simp)
  have hok_trig :
      alistGet trigger.message_id (controller_run cs es).1.storage.events ≠
        some trigger := by
    rw [hget_trig]; intro hc; cases hc
  have hst1 : (controller_run cs es).1.status ≠ Status.Active := by
    rw [h_status]; exact hst
  have hact1 : change_status (controller_run cs es).1.status trigger =
      Status.Active := by
    rw [h_status]; exact htrig
  have hstep := controller_step_activate (controller_run cs es).1 trigger
    hok_trig hst1 hact1
  refine ⟨h_out, h_queue, ?_⟩
  rw [controller_run_append]
  simp only [h_out, List.nil_append]
  have : (controller_run (controller_run cs es).1 [trigger]).2 =
      (controller_step (controller_run cs es).1 trigger).2 := by
    simp [controller_run]
  rw [this, hstep.1, h_queue, List.append_assoc]

/-- Witness for C2 at scenario S2: two relays arrive while `NotReady`,
then `BridgeStarted`; the relays are released in order, then the
trigger. -/
theorem inactive_events_queue_and_drain_in_order_witness :
    (controller_run ControllerState.new
      ([.EthRelayMessage 2 5 7 100 0 10, .EthRelayMessage 3 6 8 100 0 11] ++
       [.EthBridgeStartedMessage 1 9 12])).2 =
      [.EthRelayMessage 2 5 7 100 0 10, .EthRelayMessage 3 6 8 100 0 11,
       .EthBridgeStartedMessage 1 9 12] := by
  have h := inactive_events_queue_and_drain_in_order
    ControllerState.new
    [.EthRelayMessage 2 5 7 100 0 10, .EthRelayMessage 3 6 8 100 0 11]
    (.EthBridgeStartedMessage 1 9 12)
    (by decide) (by decide) (by decide) (by decide) (by decide)
  simpa [ControllerState.new, ControllerStorage.new] using h.2.2

lemma drainDeferredAnnotated_aux (l : List Event) :
    ∀ (storage : ControllerStorage) (accA : List (Event × ControllerStorage))
      (acc : List Event), accA.map Prod.fst = acc →
      ((l.foldl
          (fun acc q =>
            (handle_account_control_events acc.1 q,
             acc.2 ++ [(q, handle_account_control_events acc.1 q)]))
          (storage, accA)).1 =
        (l.foldl
          (fun acc q => (handle_account_control_events acc.1 q, acc.2 ++ [q]))
          (storage, acc)).1 ∧
       (l.foldl
          (fun acc q =>
            (handle_account_control_events acc.1 q,
             acc.2 ++ [(q, handle_account_control_events acc.1 q)]))
          (storage, accA)).2.map Prod.fst =
        (l.foldl
          (fun acc q => (handle_account_control_events acc.1 q, acc.2 ++ [q]))
          (storage, acc)).2) := by
  induction l with
  | nil => intro storage accA acc h; exact ⟨rfl, h⟩
  | cons q rest ih =>
    intro storage accA acc h
    simp only [List.foldl_cons]
    exact ih (handle_account_control_events storage q)
      (accA ++ [(q, handle_account_control_events storage q)])
      (acc ++ [q]) (by simp [h])

/-- The annotated drain agrees with the plain one: same final storage,
and the annotated send list projects to the plain send list. -/
lemma drainDeferredAnnotated_agrees (storage : ControllerStorage)
    (deferred : List Event) :
    (drainDeferredAnnotated storage deferred).1 =
      (drainDeferred storage deferred).1 ∧
    (drainDeferredAnnotated storage deferred).2.map Prod.fst =
      (drainDeferred storage deferred).2 := by
  exact drainDeferredAnnotated_aux deferred storage [] [] rfl

/-- The annotated step agrees with `controller_step`: same successor
state, and the annotated send list projects to the plain send list. -/
lemma controller_step_annotated_agrees (cs : ControllerState) (event : Event) :
    (controller_step_annotated cs event).1 = (controller_step cs event).1 ∧
    (controller_step_annotated cs event).2.map Prod.fst =
      (controller_step cs event).2 := by
  unfold controller_step controller_step_annotated
  cases hpe : cs.storage.put_event event with
  | mk storage1 r =>
    cases r with
    | error err => simp
    | ok u =>
      cases u
      cases hcs : change_status cs.status event with
      | Active =>
        simp only
        obtain ⟨hd1, hd2⟩ := drainDeferredAnnotated_agrees
          (handle_account_control_events storage1 event)
          (handle_account_control_events storage1 event).events_queue
        rw [hd1]
        by_cases hcond : event.event_type = EventType.Transfer ∧
          ((drainDeferred (handle_account_control_events storage1 event)
            (handle_account_control_events storage1 event).events_queue).1.clear_events_queue).is_account_blocked
            event.sender = true
        · simp [hcond, hd2]
        · simp [hcond, hd2]
      | NotReady => simp
      | Paused => simp
      | Stopped => simp

/-- C3 counterexample: in the concrete reachable state built by
`quarantineBreachInputs`, processing `BridgeResumed` drains the global
queue and sends the transfer `SubApprovedRelayMessage 4` (sender
`Sub 7`, transfer family) while the status is `Active` and while `Sub 7`
is still a key of the quarantine map at the moment of the send — the
drain loop performs no quarantine check.  This refutes the claim that
every transfer sent while `Active` has an unblocked sender. -/
theorem blocked_sender_transfer_emitted_while_active :
    ((controller_step_annotated quarantineBreachState quarantineBreachTrigger).1.status
      = Status.Active) ∧
    ((controller_step_annotated quarantineBreachState quarantineBreachTrigger).2.map
        Prod.fst =
      [.EthBridgePausedMessage 3 12, .SubApprovedRelayMessage 4 7 5 50 0 13,
       .EthBridgeResumedMessage 5 14]) ∧
    (Event.event_type (.SubApprovedRelayMessage 4 7 5 50 0 13) = EventType.Transfer) ∧
    (Event.sender (.SubApprovedRelayMessage 4 7 5 50 0 13) = some (Address.Sub 7)) ∧
    ((controller_step_annotated quarantineBreachState quarantineBreachTrigger).2.any
        (fun p => decide (p.1 = Event.SubApprovedRelayMessage 4 7 5 50 0 13) &&
          p.2.is_account_blocked p.1.sender) = true) := by
  decide

/-- C3 amended: only the freshly received event of an Active-branch pass
is quarantine-checked.  Under a successful `putEvent` and an `Active`
post-transition status, a transfer-family fresh event is emitted exactly
when its sender is not blocked in the storage consulted at the moment of
the send (after the drain and the queue clear); when the sender is
blocked, the event is placed on the sender's quarantine queue instead.
Events drained from the global queue are sent without any such check
(see the counterexample). -/
theorem fresh_transfer_not_blocked_at_emission
    (cs : ControllerState) (e : Event)
    (hok : (cs.storage.put_event e).2 = Except.ok ())
    (hact : change_status cs.status e = Status.Active) :
    let storage2 := handle_account_control_events (cs.storage.put_event e).1 e
    let storage4 :=
      (drainDeferred storage2 storage2.events_queue).1.clear_events_queue
    (e.event_type = EventType.Transfer ∧
        storage4.is_account_blocked e.sender = true →
      (controller_step cs e).2 = storage2.events_queue ∧
      (controller_step cs e).1.storage = storage4.put_event_to_account_queue e) ∧
    (¬(e.event_type = EventType.Transfer ∧
        storage4.is_account_blocked e.sender = true) →
      (controller_step cs e).2 = storage2.events_queue ++ [e]) ∧
    ((controller_step cs e).2 = storage2.events_queue ++ [e] →
      e.event_type = EventType.Transfer →
      storage4.is_account_blocked e.sender = false) := by
  intro storage2 storage4
  have hget : alistGet e.message_id cs.storage.events ≠ some e := by
    intro hc
    rw [put_event_eq] at hok
    simp [hc] at hok
  have hpe : cs.storage.put_event e =
      ({ cs.storage with events := alistInsert e.message_id e cs.storage.events },
       Except.ok ()) := by
    rw [put_event_eq]; simp [hget]
  have hstep : controller_step cs e =
      (if e.event_type = EventType.Transfer ∧
          storage4.is_account_blocked e.sender = true then
        (⟨Status.Active, storage4.put_event_to_account_queue e⟩,
         (drainDeferred storage2 storage2.events_queue).2)
      else
        (⟨Status.Active, storage4⟩,
         (drainDeferred storage2 storage2.events_queue).2 ++ [e])) := by
    show controller_step cs e = _
    unfold controller_step
    rw [hpe, hact]
    simp only [storage2, storage4, hpe]
  constructor
  · intro hcond
    rw [hstep]
    simp [hcond, drainDeferred_sent]
  constructor
  · intro hcond
    rw [hstep]
    simp [hcond, drainDeferred_sent]
  · intro hout htr
    by_cases hb : storage4.is_account_blocked e.sender = true
    · exfalso
      rw [hstep] at hout
      simp [htr, hb, drainDeferred_sent] at hout
    · simpa using hb

/-- Witness for the amended C3: an unblocked fresh transfer on an empty
Active state is emitted, and the quarantine check at the moment of the
send is `false`. -/
theorem fresh_transfer_not_blocked_at_emission_witness :
    (controller_step ⟨Status.Active, ControllerStorage.new⟩
        (Event.EthRelayMessage 1 5 7 50 0 10)).2 =
      (handle_account_control_events
        ((ControllerStorage.new.put_event (Event.EthRelayMessage 1 5 7 50 0 10)).1)
        (Event.EthRelayMessage 1 5 7 50 0 10)).events_queue ++
      [Event.EthRelayMessage 1 5 7 50 0 10] ∧
    ((drainDeferred
        (handle_account_control_events
          ((ControllerStorage.new.put_event (Event.EthRelayMessage 1 5 7 50 0 10)).1)
          (Event.EthRelayMessage 1 5 7 50 0 10))
        (handle_account_control_events
          ((ControllerStorage.new.put_event (Event.EthRelayMessage 1 5 7 50 0 10)).1)
          (Event.EthRelayMessage 1 5 7 50 0 10)).events_queue).1.clear_events_queue).is_account_blocked
      (Event.EthRelayMessage 1 5 7 50 0 10).sender = false := by
  have h := fresh_transfer_not_blocked_at_emission
    ⟨Status.Active, ControllerStorage.new⟩ (Event.EthRelayMessage 1 5 7 50 0 10)
    (by rfl) (by rfl)
  exact ⟨h.2.1 (by decide), h.2.2 (h.2.1 (by decide)) rfl⟩

/-- C4 counterexample: for scenario S3 (status `Active`, empty storage;
inputs GuestAccountPaused(0x10=16, S=7), HostRelay(0x11=17, A=5),
GuestApprovedRelay(0x12=18, sender S), GuestAccountResumed(0x13=19, S)),
the controller does NOT emit the claimed order
[Paused 16, Relay 17, Resumed 19, Approved 18]: the unblock triggered by
the Resumed event moves the quarantined transfer into the global queue,
which is drained BEFORE the triggering event itself is sent. -/
theorem s3_claimed_order_refuted :
    (controller_run ⟨Status.Active, ControllerStorage.new⟩
        [.EthGuestAccountPausedMessage 16 7 100 20,
         .EthRelayMessage 17 5 7 50 0 21,
         .SubApprovedRelayMessage 18 7 5 50 0 22,
         .EthGuestAccountResumedMessage 19 7 101 23]).2 ≠
      [.EthGuestAccountPausedMessage 16 7 100 20,
       .EthRelayMessage 17 5 7 50 0 21,
       .EthGuestAccountResumedMessage 19 7 101 23,
       .SubApprovedRelayMessage 18 7 5 50 0 22] := by
  decide

/-- C4 amended: scenario S3 emits
[GuestAccountPaused 16, HostRelay 17, GuestApprovedRelay 18,
GuestAccountResumed 19] — the released quarantined transfer precedes the
triggering Resumed event. -/
theorem s3_actual_emission_order :
    (controller_run ⟨Status.Active, ControllerStorage.new⟩
        [.EthGuestAccountPausedMessage 16 7 100 20,
         .EthRelayMessage 17 5 7 50 0 21,
         .SubApprovedRelayMessage 18 7 5 50 0 22,
         .EthGuestAccountResumedMessage 19 7 101 23]).2 =
      [.EthGuestAccountPausedMessage 16 7 100 20,
       .EthRelayMessage 17 5 7 50 0 21,
       .SubApprovedRelayMessage 18 7 5 50 0 22,
       .EthGuestAccountResumedMessage 19 7 101 23] := by
  decide

/-- C5 evaluation at the failing input: on
`EthApprovedRelayMessage(id 1, from 2, to 3, amount 50, tokenId 7, bn 9)`
the source `token_id()` returns 50 — the declared `Amount` field — not
the declared `TokenId` field 7; likewise for `SubApprovedRelayMessage`.
The zero fallback for all other variants does hold. -/
theorem token_id_returns_declared_amount_slot :
    Event.token_id (.EthApprovedRelayMessage 1 2 3 50 7 9) = 50 ∧
    Event.token_id (.SubApprovedRelayMessage 1 2 3 50 7 9) = 50 ∧
    tokenIdFieldSpec (.EthApprovedRelayMessage 1 2 3 50 7 9) = 7 ∧
    Event.token_id (.EthApprovedRelayMessage 1 2 3 50 7 9) ≠
      tokenIdFieldSpec (.EthApprovedRelayMessage 1 2 3 50 7 9) ∧
    Event.token_id (.EthRelayMessage 1 2 3 50 7 9) = 0 ∧
    Event.token_id (.EthRevertMessage 1 2 3 4) = 0 := by
  decide

/-- C6 counterexample: `HostRevert` (`EthRevertMessage`) and
`GuestCancellationConfirmed` (`SubCancellationConfirmedMessage`) are
classified `Other` by `event_type`, not `Transfer`. -/
theorem revert_and_cancellation_not_transfer_family :
    Event.event_type (.EthRevertMessage 1 2 3 4) = EventType.Other ∧
    Event.event_type (.SubCancellationConfirmedMessage 1 2 3) = EventType.Other ∧
    EventType.Other ≠ EventType.Transfer := by
  decide

/-- C6 amended: an event is classified `Transfer` (and thus subject to
the Active-branch per-account quarantine check) exactly when it is one
of the seven variants of `isTransferFamilyAmended`. -/
theorem event_type_transfer_iff_amended_family (e : Event) :
    e.event_type = EventType.Transfer ↔ isTransferFamilyAmended e = true := by
  cases e <;> simp [Event.event_type, isTransferFamilyAmended]

/-- C7: from `Stopped` only `BridgeStarted` changes the status (to
`Active`) — every other event, `BridgeResumed` included, leaves it
`Stopped`; concretely (scenario S5, ids 0xB1=177, 0xB2=178, 0xB3=179),
after BridgeStopped and BridgeResumed the status is `Stopped`, both
events sit on the global queue unemitted, and appending BridgeStarted
yields the emission [BridgeStopped, BridgeResumed, BridgeStarted]. -/
theorem stopped_only_reactivated_by_bridge_started :
    (∀ e : Event, change_status Status.Stopped e =
      (if isBridgeStarted e then Status.Active else Status.Stopped)) ∧
    ((controller_run ⟨Status.Active, ControllerStorage.new⟩
        [.EthBridgeStoppedMessage 177 9 40,
         .EthBridgeResumedMessage 178 41]).1.status = Status.Stopped) ∧
    ((controller_run ⟨Status.Active, ControllerStorage.new⟩
        [.EthBridgeStoppedMessage 177 9 40,
         .EthBridgeResumedMessage 178 41]).1.storage.events_queue =
      [.EthBridgeStoppedMessage 177 9 40, .EthBridgeResumedMessage 178 41]) ∧
    ((controller_run ⟨Status.Active, ControllerStorage.new⟩
        [.EthBridgeStoppedMessage 177 9 40,
         .EthBridgeResumedMessage 178 41]).2 = []) ∧
    ((controller_run ⟨Status.Active, ControllerStorage.new⟩
        [.EthBridgeStoppedMessage 177 9 40,
         .EthBridgeResumedMessage 178 41,
         .EthBridgeStartedMessage 179 9 42]).2 =
      [.EthBridgeStoppedMessage 177 9 40, .EthBridgeResumedMessage 178 41,
       .EthBridgeStartedMessage 179 9 42]) := by
  refine ⟨?_, by decide, by decide, by decide, by decide⟩
  intro e
  cases e <;> rfl

/-- C8: the decoding of an indexed-store transfer record is total and
follows exactly the claimed (status × direction) table — the four named
combinations map to HostRelay / HostApprovedRelay / HostRevert /
HostWithdraw, and each of the four remaining combinations falls back to
HostApprovedRelay; the `messagesByStatus` decoder agrees with the
`allMessages` one on every record. -/
theorem indexed_record_decoding_total :
    (∀ m : GraphMessage, eventOfMessageByStatus m = eventOfAllMessage m) ∧
    (∀ (id : MessageId) (eth : EthAddress) (sub : SubAddress) (amt : Amount)
        (bn : BlockNumber),
      eventOfAllMessage ⟨id, eth, sub, amt, bn, .PENDING, .ETH2SUB⟩ =
        .EthRelayMessage id eth sub amt 0 bn ∧
      eventOfAllMessage ⟨id, eth, sub, amt, bn, .APPROVED, .ETH2SUB⟩ =
        .EthApprovedRelayMessage id eth sub amt 0 bn ∧
      eventOfAllMessage ⟨id, eth, sub, amt, bn, .CANCELED, .ETH2SUB⟩ =
        .EthRevertMessage id eth amt bn ∧
      eventOfAllMessage ⟨id, eth, sub, amt, bn, .WITHDRAW, .SUB2ETH⟩ =
        .EthWithdrawMessage id bn ∧
      eventOfAllMessage ⟨id, eth, sub, amt, bn, .PENDING, .SUB2ETH⟩ =
        .EthApprovedRelayMessage id eth sub amt 0 bn ∧
      eventOfAllMessage ⟨id, eth, sub, amt, bn, .APPROVED, .SUB2ETH⟩ =
        .EthApprovedRelayMessage id eth sub amt 0 bn ∧
      eventOfAllMessage ⟨id, eth, sub, amt, bn, .CANCELED, .SUB2ETH⟩ =
        .EthApprovedRelayMessage id eth sub amt 0 bn ∧
      eventOfAllMessage ⟨id, eth, sub, amt, bn, .WITHDRAW, .ETH2SUB⟩ =
        .EthApprovedRelayMessage id eth sub amt 0 bn) := by
  constructor
  · intro m
    rcases m with ⟨id, eth, sub, amt, bn, st, dir⟩
    cases st <;> cases dir <;> rfl
  · intro id eth sub amt bn
    exact ⟨rfl, rfl, rfl, rfl, rfl, rfl, rfl, rfl⟩

lemma listMaxNat_eq_none (l : List Nat) : listMaxNat l = none ↔ l = [] := by
  cases l with
  | nil => simp [listMaxNat]
  | cons b rest =>
    simp only [listMaxNat]
    cases h : listMaxNat rest <;> simp

lemma listMaxNat_mem (l : List Nat) (m : Nat) (h : listMaxNat l = some m) :
    m ∈ l := by
  induction l generalizing m with
  | nil => cases h
  | cons b rest ih =>
    simp only [listMaxNat] at h
    cases hr : listMaxNat rest with
    | none =>
      rw [hr] at h
      cases h
      simp
    | some m' =>
      rw [hr] at h
      cases h
      rcases Nat.le_total b m' with hb | hb
      · rw [Nat.max_eq_right hb]
        exact List.mem_cons_of_mem b (ih m' hr)
      · rw [Nat.max_eq_left hb]
        simp

lemma le_listMaxNat (l : List Nat) (x m : Nat) (hx : x ∈ l)
    (h : listMaxNat l = some m) : x ≤ m := by
  induction l generalizing m with
  | nil => cases hx
  | cons b rest ih =>
    simp only [listMaxNat] at h
    cases hr : listMaxNat rest with
    | none =>
      rw [hr] at h
      cases h
      have : rest = [] := (listMaxNat_eq_none rest).mp hr
      subst this
      have hxb : x = b := by simpa using hx
      exact Nat.le_of_eq hxb
    | some m' =>
      rw [hr] at h
      cases h
      rcases List.mem_cons.mp hx with rfl | hxr
      · exact Nat.le_max_left x m'
      · exact Nat.le_trans (ih m' hxr hr) (Nat.le_max_right b m')

/-- C9: cold-start offset initialization for a watermark category: when
the max-block-number query is empty the offset is retained, otherwise
the offset becomes the returned maximum (an upper bound of every stored
block number above the old offset); in both cases the first steady-state
polling pass over the same store returns no records, so a second startup
on the same store emits no events from this path. -/
theorem cold_start_offsets_skip_history (store : List GraphMessage)
    (offset : Nat) :
    (maxBlockNumberQueryResult store offset = [] →
      set_messages_offset store offset = offset) ∧
    (∀ b, maxBlockNumberQueryResult store offset = [b] →
      set_messages_offset store offset = b ∧
      (∀ m ∈ store, offset < m.ethBlockNumber → m.ethBlockNumber ≤ b)) ∧
    allMessagesQueryResult store (set_messages_offset store offset) = [] := by
  refine ⟨?_, ?_, ?_⟩
  · intro h
    simp [set_messages_offset, get_max_block_number_of_messages, h]
  · intro b h
    constructor
    · simp [set_messages_offset, get_max_block_number_of_messages, h]
    · intro m hm hoff
      have hmax : listMaxNat
          ((store.map (fun m => m.ethBlockNumber)).filter
            (fun b => decide (offset < b))) = some b := by
        unfold maxBlockNumberQueryResult at h
        cases hl : listMaxNat
            ((store.map (fun m => m.ethBlockNumber)).filter
              (fun b => decide (offset < b))) with
        | none => rw [hl] at h; cases h
        | some m' => rw [hl] at h; cases h; rfl
      apply le_listMaxNat _ _ _ _ hmax
      apply List.mem_filter.mpr
      exact ⟨List.mem_map_of_mem _ hm, by simpa using hoff⟩
  · cases hl : listMaxNat
        ((store.map (fun m => m.ethBlockNumber)).filter
          (fun b => decide (offset < b))) with
    | none =>
      have hset : set_messages_offset store offset = offset := by
        simp [set_messages_offset, get_max_block_number_of_messages,
          maxBlockNumberQueryResult, hl]
      rw [hset]
      have hempty :
          (store.map (fun m => m.ethBlockNumber)).filter
            (fun b => decide (offset < b)) = [] :=
        (listMaxNat_eq_none _).mp hl
      apply List.filter_eq_nil_iff.mpr
      intro m hm
      simp only [decide_eq_true_eq]
      intro hlt
      have : m.ethBlockNumber ∈
          (store.map (fun m => m.ethBlockNumber)).filter
            (fun b => decide (offset < b)) :=
        List.mem_filter.mpr ⟨List.mem_map_of_mem _ hm, by simpa using hlt⟩
      rw [hempty] at this
      cases this
    | some b =>
      have hset : set_messages_offset store offset = b := by
        simp [set_messages_offset, get_max_block_number_of_messages,
          maxBlockNumberQueryResult, hl]
      rw [hset]
      have hb_mem := listMaxNat_mem _ _ hl
      have hb_off : offset < b := by
        have := (List.mem_filter.mp hb_mem).2
        simpa using this
      apply List.filter_eq_nil_iff.mpr
      intro m hm
      simp only [decide_eq_true_eq]
      intro hlt
      have hmem : m.ethBlockNumber ∈
          (store.map (fun m => m.ethBlockNumber)).filter
            (fun b => decide (offset < b)) :=
        List.mem_filter.mpr
          ⟨List.mem_map_of_mem _ hm, by simp [Nat.lt_trans hb_off hlt]⟩
      have := le_listMaxNat _ _ _ hmem hl
      exact absurd hlt (Nat.not_lt.mpr this)

/-- Witness for C9 at scenario S6: on a store with blocks {5,7,9} and
offset 0, the cold start sets the offset to 9 and the first steady-state
polling pass returns no records. -/
theorem cold_start_offsets_skip_history_witness :
    set_messages_offset graphStoreS6 0 = 9 ∧
    allMessagesQueryResult graphStoreS6 (set_messages_offset graphStoreS6 0) = [] := by
  have h := cold_start_offsets_skip_history graphStoreS6 0
  exact ⟨(h.2.1 9 (by decide)).1, h.2.2⟩

/-- C10: the guest-chain subscription account-control events
(`SubAccountPausedMessage` / `SubAccountResumedMessage`) leave the whole
controller storage — in particular the quarantine map — unchanged; more
generally every event outside the four indexed-store account-control
variants leaves it unchanged, while those four are exactly
`block_account` / `unblock_account`; and the Executor turns the
subscription variants into host-chain `setPausedStatusForGuestAddress` /
`setResumedStatusForGuestAddress` submissions (the indexed-store
account-control variants are ignored by the Executor). -/
theorem subscription_account_events_leave_quarantine_unchanged :
    (∀ (s : ControllerStorage) (id : MessageId) (sub : SubAddress)
        (ts : Timestamp) (tok : TokenId) (bn : BlockNumber),
      handle_account_control_events s (.SubAccountPausedMessage id sub ts tok bn) = s ∧
      handle_account_control_events s (.SubAccountResumedMessage id sub ts tok bn) = s) ∧
    (∀ (s : ControllerStorage) (e : Event), isIndexedAccountControl e = false →
      handle_account_control_events s e = s) ∧
    (∀ (s : ControllerStorage) (id : MessageId) (a : EthAddress)
        (sub : SubAddress) (ts : Timestamp) (bn : BlockNumber),
      handle_account_control_events s (.EthHostAccountPausedMessage id a ts bn) =
        s.block_account (.Eth a) ∧
      handle_account_control_events s (.EthHostAccountResumedMessage id a ts bn) =
        s.unblock_account (.Eth a) ∧
      handle_account_control_events s (.EthGuestAccountPausedMessage id sub ts bn) =
        s.block_account (.Sub sub) ∧
      handle_account_control_events s (.EthGuestAccountResumedMessage id sub ts bn) =
        s.unblock_account (.Sub sub)) ∧
    (∀ (id : MessageId) (sub : SubAddress) (ts : Timestamp) (tok : TokenId)
        (bn : BlockNumber),
      executor_dispatch (.SubAccountPausedMessage id sub ts tok bn) =
        .setPausedStatusForGuestAddress id sub tok ∧
      executor_dispatch (.SubAccountResumedMessage id sub ts tok bn) =
        .setResumedStatusForGuestAddress id sub tok) ∧
    (∀ (id : MessageId) (a : EthAddress) (sub : SubAddress) (ts : Timestamp)
        (bn : BlockNumber),
      executor_dispatch (.EthHostAccountPausedMessage id a ts bn) = .ignore ∧
      executor_dispatch (.EthHostAccountResumedMessage id a ts bn) = .ignore ∧
      executor_dispatch (.EthGuestAccountPausedMessage id sub ts bn) = .ignore ∧
      executor_dispatch (.EthGuestAccountResumedMessage id sub ts bn) = .ignore) := by
  refine ⟨?_, ?_, ?_, ?_, ?_⟩
  · intro s id sub ts tok bn
    exact ⟨rfl, rfl⟩
  · intro s e h
    exact handle_account_control_events_not_indexed s e h
  · intro s id a sub ts bn
    exact ⟨rfl, rfl, rfl, rfl⟩
  · intro id sub ts tok bn
    exact ⟨rfl, rfl⟩
  · intro id a sub ts bn
    exact ⟨rfl, rfl, rfl, rfl⟩

/-- Witness for C10: a concrete non-account-control event
(`SubRelayMessage`) leaves a concrete storage unchanged. -/
theorem subscription_account_events_leave_quarantine_unchanged_witness :
    isIndexedAccountControl (.SubRelayMessage 1 2) = false ∧
    handle_account_control_events
      (ControllerStorage.new.block_account (.Sub 7)) (.SubRelayMessage 1 2) =
      ControllerStorage.new.block_account (.Sub 7) := by
  exact ⟨by decide,
    subscription_account_events_leave_quarantine_unchanged.2.1
      (ControllerStorage.new.block_account (.Sub 7)) (.SubRelayMessage 1 2)
      (by decide)⟩

/-- Witness for C1: on an empty storage, `putEvent` of a concrete event
returns `Ok`, and immediately repeating it returns `Duplicate`. -/
theorem put_event_duplicate_iff_stored_equal_witness :
    (ControllerStorage.new.put_event (.EthBridgePausedMessage 1 0)).2 =
      Except.ok () ∧
    ((ControllerStorage.new.put_event (.EthBridgePausedMessage 1 0)).1.put_event
        (.EthBridgePausedMessage 1 0)).2 =
      Except.error StorageError.Duplicate := by
  have h := put_event_duplicate_iff_stored_equal ControllerStorage.new
    (.EthBridgePausedMessage 1 0)
  exact ⟨h.2.2.2.1, h.2.2.1⟩
